import Mathlib

/-!
Shallow embedding of the OSS V4 presigned-URL signer found in
`src/unnamed/part_000`.  The file contains two variants of the signer:
a Web-Crypto based one (lines 85-382) and a Node-crypto based one
(lines 383-669).  All canonicalization / encoding helpers
(`encodeString`, `formatDateUTC`, `getProduct`, `getSignRegion`,
`fixAdditionalHeaders`, `getCredential`, `buildCanonicalQueryString`,
`lowercaseKeyHeader`, `getCanonicalRequest`, `buildEndpoint`) are
textually identical between the two variants, so they are embedded once
and shared.  The functions that touch the cryptographic primitives
(`getStringToSign`, `getSignatureV4`, `signatureUrlV4`) are embedded
twice: the Web variant threads a counter of crypto-primitive
invocations (each `subtle` call is one suspension point in the source),
the Node variant is plain.

JavaScript semantics that the embedding reproduces:
* optional / possibly-`undefined` string values are `Option String`;
  `jsTruthy` is JS truthiness for such a value (`undefined` and `""`
  are falsy), `jsOptStr` is the value as it appears inside a template
  string (`undefined` prints as `"undefined"`);
* JS objects used as string maps are association lists with unique
  keys built by `jsObject` / `jsInsert` (assignment to an existing key
  overwrites in place, a new key is appended), mirroring JS insertion
  order for non-numeric keys (no claim involves numeric keys);
* `encodeURIComponent` percent-encodes the UTF-8 bytes of every
  character outside `A-Z a-z 0-9 - _ . ! ~ * ' ( )` with uppercase hex;
* the SHA-256 / HMAC-SHA256 primitives are external to the repository
  (`crypto.subtle` resp. `require('crypto')`), so they are modelled as
  an abstract `CryptoProvider` parameter whose outputs are byte lists.
-/

/-- JS truthiness of a string-or-undefined value: `undefined` and the
empty string are falsy. -/
def jsTruthy (v : Option String) : Bool :=
  match v with
  | none => false
  | some s => !(s == "")

/-- How a string-or-undefined value appears inside a JS template string:
`undefined` stringifies to `"undefined"`. -/
def jsOptStr (v : Option String) : String :=
  match v with
  | none => "undefined"
  | some s => s

/-- JS `Array.prototype.join(sep)`. -/
def jsJoin (sep : String) : List String → String
  | [] => ""
  | [a] => a
  | a :: rest => a ++ sep ++ jsJoin sep rest

/-- Lookup in a JS-object association list (first binding wins; the
lists built by `jsObject`/`jsInsert` have unique keys). -/
def jsLookup {α : Type} (k : String) : List (String × α) → Option α
  | [] => none
  | (k', v) :: rest => if k' == k then some v else jsLookup k rest

/-- JS property assignment `o[k] = v`: overwrite in place if the key
exists, otherwise append (insertion order of JS objects). -/
def jsInsert {α : Type} (k : String) (v : α) : List (String × α) → List (String × α)
  | [] => [(k, v)]
  | (k', w) :: rest => if k' == k then (k, v) :: rest else (k', w) :: jsInsert k v rest

/-- Build a JS object from a list of bindings (later duplicates
overwrite earlier ones in place), as `Object.assign({}, m)` does. -/
def jsObject {α : Type} (l : List (String × α)) : List (String × α) :=
  l.foldl (fun acc kv => jsInsert kv.1 kv.2 acc) []

/-- ASCII lower-casing of one character (what `String.prototype.toLowerCase`
does on the ASCII range; every string the claims mention is ASCII). -/
def jsLowerChar (c : Char) : Char :=
  if 'A' ≤ c ∧ c ≤ 'Z' then Char.ofNat (c.toNat + 32) else c

/-- ASCII upper-casing of one character. -/
def jsUpperChar (c : Char) : Char :=
  if 'a' ≤ c ∧ c ≤ 'z' then Char.ofNat (c.toNat - 32) else c

/-- JS `toLowerCase` (ASCII fragment). -/
def jsToLower (s : String) : String := String.mk (s.data.map jsLowerChar)

/-- JS `toUpperCase` (ASCII fragment). -/
def jsToUpper (s : String) : String := String.mk (s.data.map jsUpperChar)

/-- JS `String.prototype.trim` (whitespace at both ends). -/
def jsTrim (s : String) : String :=
  String.mk (((s.data.dropWhile Char.isWhitespace).reverse.dropWhile Char.isWhitespace).reverse)

/-- Does the character list `s` start with the character list `p`? -/
def charsHasStart : List Char → List Char → Bool
  | [], _ => true
  | _ :: _, [] => false
  | a :: as, b :: bs => a == b && charsHasStart as bs

/-- JS `s.startsWith(p)`. -/
def jsStartsWith (s p : String) : Bool := charsHasStart p.data s.data

/-- JS `s.split(c)[0]`: the part of `s` before the first occurrence of
the one-character separator `c` (all of `s` if `c` does not occur). -/
def jsSplitHead (c : Char) (s : String) : String :=
  String.mk (s.data.takeWhile (fun a => a != c))

/-- JS `s.replace(/\/$/, '')`: strip a single trailing slash. -/
def stripTrailingSlash (s : String) : String :=
  match s.data.reverse with
  | '/' :: rest => String.mk rest.reverse
  | _ => s

/-- One global pass of JS `s.replace(/%2F/g, '/')` over a character
list, scanning left to right. -/
def replace2FAux : List Char → List Char
  | '%' :: '2' :: 'F' :: rest => '/' :: replace2FAux rest
  | c :: rest => c :: replace2FAux rest
  | [] => []

/-- JS `s.replace(/%2F/g, '/')`. -/
def replace2F (s : String) : String := String.mk (replace2FAux s.data)

/-- UTF-8 encoding of one Unicode scalar value, as a list of byte
values (what `TextEncoder` / `Buffer` produce per character). -/
def utf8EncodeChar (c : Char) : List Nat :=
  let n := c.toNat
  if n < 0x80 then [n]
  else if n < 0x800 then [0xC0 + n / 0x40, 0x80 + n % 0x40]
  else if n < 0x10000 then [0xE0 + n / 0x1000, 0x80 + (n / 0x40) % 0x40, 0x80 + n % 0x40]
  else [0xF0 + n / 0x40000, 0x80 + (n / 0x1000) % 0x40, 0x80 + (n / 0x40) % 0x40, 0x80 + n % 0x40]

/-- UTF-8 bytes of a string (`toUint8` applied to a string in the
source, line 103). -/
def utf8Bytes (s : String) : List Nat := s.data.flatMap utf8EncodeChar

/-- Uppercase hex digit (used by percent-encoding). -/
def hexUpChar (n : Nat) : Char := jsUpperChar (Nat.digitChar n)

/-- `%XX` (uppercase) for one byte value `< 256`. -/
def pctOfByte (b : Nat) : List Char := ['%', hexUpChar (b / 16), hexUpChar (b % 16)]

/-- Percent-encoding of one character: `%XX` for each of its UTF-8 bytes. -/
def pctBytes (c : Char) : List Char := (utf8EncodeChar c).flatMap pctOfByte

/-- The characters `encodeURIComponent` leaves unescaped:
ASCII alphanumerics and `- _ . ! ~ * ' ( )`. -/
def uriSafe (c : Char) : Bool :=
  c.isAlphanum || c == '-' || c == '_' || c == '.' || c == '!' || c == '~' ||
    c == '*' || c == '\'' || c == '(' || c == ')'

/-- JS `encodeURIComponent`. -/
def encodeURIComponent (s : String) : String :=
  String.mk (s.data.flatMap fun c => if uriSafe c then [c] else pctBytes c)

/-- The four-plus-one characters the source additionally escapes on top
of `encodeURIComponent` (regex `/[!'()*]/g`, source lines 136 / 393). -/
def extraEscapeSet : List Char := ['!', '\'', '(', ')', '*']

/-- The post-pass `.replace(/[!'()*]/g, c => '%XX')` of `encodeString`:
those five characters are never produced inside a `%XX` triple, so the
regex only ever hits literal occurrences. -/
def extraEscape (s : String) : String :=
  String.mk (s.data.flatMap fun c => if c ∈ extraEscapeSet then pctOfByte c.toNat else [c])

/-- `encodeString` (source lines 134-137 / 391-394): strict URI
encoding used for query keys/values and the canonical URI, with the
guard `str === undefined || str === null ? '' : str` already applied
(see `encodeStringO` for the guarded entry point). -/
def encodeString (s : String) : String := extraEscape (encodeURIComponent s)

/-- `encodeString` applied to a string-or-null value: `null`/`undefined`
become the empty string (the guard on source line 135). -/
def encodeStringO (v : Option String) : String := encodeString (v.getD "")

/-- One iteration of the `bufToHex` loop (source line 112):
`(b[i] < 16 ? '0' : '') + b[i].toString(16)`; `toString(16)` produces
lowercase hex digits, which is what `Nat.toDigits 16` renders. -/
def byteHex (b : Nat) : List Char := (if b < 16 then ['0'] else []) ++ Nat.toDigits 16 b

/-- `bufToHex` (source lines 108-115): the per-byte chunks concatenated. -/
def bufToHex (buf : List Nat) : String := String.mk (buf.flatMap byteHex)

/-! ### The signer's data model -/

/-- The components a JS `Date` exposes through its `getUTC*` accessors;
`utcMonth` is 0-based, exactly as `getUTCMonth()` returns it.  This is
the single wall-clock value `new Date()` (source line 271 / 524) reads
at the start of a signing call. -/
structure JsDate where
  utcFullYear : Nat
  utcMonth : Nat
  utcDate : Nat
  utcHours : Nat
  utcMinutes : Nat
  utcSeconds : Nat

/-- The record `formatDateUTC` returns. -/
structure DateStamps where
  timeStamp : String
  dateStamp : String

/-- The `pad` helper of `formatDateUTC` (source line 141). -/
def padNum (n : Nat) : String := if n < 10 then "0" ++ Nat.repr n else Nat.repr n

/-- `formatDateUTC` (source lines 139-151): `YYYYMMDD'T'HHMMss'Z'` and
`YYYYMMDD`. -/
def formatDateUTC (d : JsDate) : DateStamps :=
  let y := Nat.repr d.utcFullYear
  let m := padNum (d.utcMonth + 1)
  let dd := padNum d.utcDate
  let hh := padNum d.utcHours
  let mm := padNum d.utcMinutes
  let ss := padNum d.utcSeconds
  let dateStamp := y ++ m ++ dd
  ⟨dateStamp ++ "T" ++ hh ++ mm ++ ss ++ "Z", dateStamp⟩

/-- `getProduct` (source line 153): the fixed product tag. -/
def getProduct : String := "oss"

/-- `getSignRegion` (source lines 157-160): strip one leading literal
`oss-` from the region code; falsy input is passed through unchanged. -/
def getSignRegion (region : Option String) : Option String :=
  match region with
  | none => none
  | some s => if s == "" then some s else some (if jsStartsWith s "oss-" then String.mk (s.data.drop 4) else s)

/-- `fixAdditionalHeaders` (source lines 162-167): lowercase, de-dup
via a `Set` (first occurrence kept), drop `content-type`,
`content-md5` and `x-oss-*`, then sort. -/
def dedupFirstAux (seen : List String) : List String → List String
  | [] => []
  | a :: rest => if seen.contains a then dedupFirstAux seen rest else a :: dedupFirstAux (a :: seen) rest

/-- `[...new Set(l)]`: de-duplication keeping first occurrences. -/
def dedupFirst (l : List String) : List String := dedupFirstAux [] l

/-- Lexicographic string order, spelt through the core `String`
instance (character-list order), which evaluates inside the kernel.
`strLt_iff_lt` below identifies it with the ambient order on `String`. -/
def strLt (a b : String) : Prop := @LT.lt String String.instLT a b

instance strLtDec (a b : String) : Decidable (strLt a b) := String.decLt a b

/-- Insert into a sorted list of strings (the comparison JS
`Array.prototype.sort()` performs on distinct ASCII strings). -/
def strInsertSorted (a : String) : List String → List String
  | [] => [a]
  | b :: rest =>
    if strLt a b then a :: b :: rest else b :: strInsertSorted a rest

/-- JS `Array.prototype.sort()` on a list of strings (default
lexicographic comparator; the lists sorted by the source never rely on
tie-breaking because their elements are distinct). -/
def strSort : List String → List String
  | [] => []
  | a :: rest => strInsertSorted a (strSort rest)

/-- `fixAdditionalHeaders` itself; `none` models a JS-falsy argument
(the `if (!additionalHeaders) return []` guard on line 163). -/
def fixAdditionalHeaders (additionalHeaders : Option (List String)) : List String :=
  match additionalHeaders with
  | none => []
  | some hs =>
    strSort ((dedupFirst (hs.map jsToLower)).filter fun v =>
      !(v == "content-type") && !(v == "content-md5") && !(jsStartsWith v "x-oss-"))

/-- `getCredential` (source lines 169-172). -/
def getCredential (date region : String) (accessKeyId : Option String) (product : String) : String :=
  let temp := date ++ "/" ++ region ++ "/" ++ product ++ "/aliyun_v4_request"
  if jsTruthy accessKeyId then jsOptStr accessKeyId ++ "/" ++ temp else temp

/-- `buildCanonicalQueryString` (source lines 174-183): keys sorted by
raw key; a `null`/`undefined` value renders the encoded key alone. -/
def buildCanonicalQueryString (queries : List (String × Option String)) : String :=
  let keys := strSort (queries.map (·.1))
  jsJoin "&" (keys.map fun k =>
    match jsLookup k queries with
    | some (some v) => encodeString k ++ "=" ++ encodeString v
    | _ => encodeString k)

/-- `lowercaseKeyHeader` (source lines 185-192): rebuild the header map
with lowercased keys (later duplicates overwrite in place). -/
def lowercaseKeyHeader (headers : List (String × String)) : List (String × String) :=
  jsObject (headers.map fun kv => (jsToLower kv.1, kv.2))

/-- `getCanonicalRequest` (source lines 194-225).  Shared verbatim by
both variants (lines 451-482 are a textual copy).  The thrown
`Error('bucketName required when objectName provided')` is the
`Except.error` case.  A canonical-header name with no matching entry in
the header map renders its value as the string `"undefined"`, exactly
as the template string on line 216 does. -/
def getCanonicalRequest (method : String) (headers : List (String × String))
    (queries : List (String × Option String)) (bucketName objectName : Option String)
    (additionalHeaders : List String) : Except String String :=
  let headersLC := lowercaseKeyHeader headers
  if jsTruthy objectName && !jsTruthy bucketName then
    .error "bucketName required when objectName provided"
  else
    let canonicalURI := "/" ++ (if jsTruthy bucketName then jsOptStr bucketName ++ "/" else "") ++
      (if jsTruthy objectName then jsOptStr objectName else "")
    let encodedURI := replace2F (encodeString canonicalURI)
    let canonicalQS := buildCanonicalQueryString queries
    let tempHeaders := dedupFirst (additionalHeaders ++
      (headersLC.map (·.1)).filter fun k =>
        k == "content-type" || k == "content-md5" || jsStartsWith k "x-oss-")
    let canonicalHeaders := jsJoin "" ((strSort tempHeaders).map fun k =>
      k ++ ":" ++ (match jsLookup k headersLC with
                   | some v => jsTrim v
                   | none => "undefined") ++ "\n")
    let additionalHeaderNames := if additionalHeaders.length > 0 then jsJoin ";" additionalHeaders else ""
    let payloadHash := match jsLookup "x-oss-content-sha256" headersLC with
      | some v => if v == "" then "UNSIGNED-PAYLOAD" else v
      | none => "UNSIGNED-PAYLOAD"
    .ok (jsJoin "\n" [jsToUpper method, encodedURI, canonicalQS, canonicalHeaders,
      additionalHeaderNames, payloadHash])

/-- `buildEndpoint` (source lines 246-251 / 499-504). -/
def buildEndpoint (endpoint bucket region : Option String) : Except String String :=
  if jsTruthy endpoint then .ok (stripTrailingSlash (jsOptStr endpoint))
  else if !jsTruthy bucket || !jsTruthy region then .error "bucket and region or endpoint required"
  else .ok ("https://" ++ jsOptStr bucket ++ "." ++ jsOptStr region ++ ".aliyuncs.com")

/-- The ambient SHA-256 / HMAC-SHA256 primitives.  The source obtains
them from the host environment (`crypto.subtle`, lines 90-97, resp.
`require('crypto')`, line 389); they are not code of this repository,
so the signer is parametrised over them.  Inputs and outputs are byte
lists. -/
structure CryptoProvider where
  sha256 : List Nat → List Nat
  hmacSha256 : List Nat → List Nat → List Nat

/-- `sha256HexAsync` (source lines 117-122).  The `Nat` component
counts crypto-primitive invocations (each one is an awaited `subtle`
call in the source); it makes "cryptographic work performed before an
error" observable. -/
def sha256HexAsync (p : CryptoProvider) (s : String) (c : Nat) : String × Nat :=
  (bufToHex (p.sha256 (utf8Bytes s)), c + 1)

/-- `hmacSha256Async` (source lines 124-132); every call site passes a
string as `data`, which `toUint8` UTF-8 encodes. -/
def hmacSha256Async (p : CryptoProvider) (key : List Nat) (data : String) (c : Nat) : List Nat × Nat :=
  (p.hmacSha256 key (utf8Bytes data), c + 1)

/-- `getStringToSign`, Web variant (source lines 227-232). -/
def getStringToSign (p : CryptoProvider) (region dateTime canonicalRequest product : String)
    (c : Nat) : String × Nat :=
  let productName := if product == "" then getProduct else product
  let scope := jsSplitHead 'T' dateTime ++ "/" ++ region ++ "/" ++ productName ++ "/aliyun_v4_request"
  let hc := sha256HexAsync p canonicalRequest c
  (jsJoin "\n" ["OSS4-HMAC-SHA256", dateTime, scope, hc.1], hc.2)

/-- `getSignatureV4`, Web variant (source lines 234-244): the five-step
HMAC chain from `'aliyun_v4' + secret`. -/
def getSignatureV4 (p : CryptoProvider) (accessKeySecret : Option String)
    (date region stringToSign product : String) (c : Nat) : String × Nat :=
  let prod := if product == "" then getProduct else product
  let kSecret := utf8Bytes ("aliyun_v4" ++ jsOptStr accessKeySecret)
  let d1 := hmacSha256Async p kSecret date c
  let d2 := hmacSha256Async p d1.1 region d1.2
  let d3 := hmacSha256Async p d2.1 prod d2.2
  let d4 := hmacSha256Async p d3.1 "aliyun_v4_request" d3.2
  let d5 := hmacSha256Async p d4.1 stringToSign d4.2
  (bufToHex d5.1, d5.2)

/-- The options object `signatureUrlV4` destructures (source lines
254-267 / 507-520).  Optional fields are `Option`; `headers` and
`queries` default to the empty map, matching the destructuring
defaults.  `expires` is kept as a natural number (every use in the
source only ever stringifies it). -/
structure SignOpts where
  accessKeyId : Option String
  accessKeySecret : Option String
  region : Option String
  bucket : Option String
  object : Option String
  method : Option String
  expires : Option Nat
  headers : List (String × String)
  queries : List (String × Option String)
  endpoint : Option String
  additionalHeaders : Option (List String)
  securityToken : Option String

/-- Convenience constructor for a fully-defaulted options object. -/
def SignOpts.base : SignOpts :=
  ⟨none, none, none, none, none, none, none, [], [], none, none, none⟩

/-- The query map `q` as built on source lines 275-281, i.e. everything
inserted before the signature: caller queries, then
`x-oss-additional-headers` (only if non-empty), `x-oss-credential`,
`x-oss-date`, `x-oss-expires`, `x-oss-signature-version`, and the
optional `x-oss-security-token`. -/
def presignBaseQueries (opts : SignOpts) (now : JsDate) : List (String × Option String) :=
  let expires := opts.expires.getD 60
  let fixedAdditional := fixAdditionalHeaders (some (opts.additionalHeaders.getD []))
  let f := formatDateUTC now
  let q := jsObject opts.queries
  let q := if fixedAdditional.length > 0 then
    jsInsert "x-oss-additional-headers" (some (jsJoin ";" fixedAdditional)) q else q
  let q := jsInsert "x-oss-credential"
    (some (getCredential f.dateStamp (jsOptStr (getSignRegion opts.region)) opts.accessKeyId getProduct)) q
  let q := jsInsert "x-oss-date" (some f.timeStamp) q
  let q := jsInsert "x-oss-expires" (some (Nat.repr expires)) q
  let q := jsInsert "x-oss-signature-version" (some "OSS4-HMAC-SHA256") q
  if jsTruthy opts.securityToken then
    jsInsert "x-oss-security-token" (some (jsOptStr opts.securityToken)) q else q

/-- The canonical request a signing call computes (the
`getCanonicalRequest` call on source line 283 / 536, with `method`,
`headers` and `q` as `signatureUrlV4` passes them). -/
def canonicalRequestOf (opts : SignOpts) (now : JsDate) : Except String String :=
  getCanonicalRequest (opts.method.getD "GET") opts.headers (presignBaseQueries opts now)
    opts.bucket opts.object (fixAdditionalHeaders (some (opts.additionalHeaders.getD [])))

/-- The string-to-sign a signing call derives the signature from
(source line 284 / 537), exposed for the statements about scope
consistency; the crypto counter of the inner call is discarded. -/
def stringToSignOf (p : CryptoProvider) (opts : SignOpts) (now : JsDate) : Except String String :=
  (canonicalRequestOf opts now).map fun cr =>
    (getStringToSign p (jsOptStr (getSignRegion opts.region)) (formatDateUTC now).timeStamp cr getProduct 0).1

/-- Source lines 269-285 of the Web variant: the fully-populated query
map including `x-oss-signature`, or the error thrown by
`getCanonicalRequest`.  The `Nat` component counts crypto-primitive
invocations performed so far. -/
def presignQueries (p : CryptoProvider) (opts : SignOpts) (now : JsDate) (c : Nat) :
    Except String (List (String × Option String)) × Nat :=
  match canonicalRequestOf opts now with
  | .error e => (.error e, c)
  | .ok cr =>
    let f := formatDateUTC now
    let s1 := getStringToSign p (jsOptStr (getSignRegion opts.region)) f.timeStamp cr getProduct c
    let s2 := getSignatureV4 p opts.accessKeySecret f.dateStamp (jsOptStr (getSignRegion opts.region))
      s1.1 getProduct s1.2
    (.ok (jsInsert "x-oss-signature" (some s2.1) (presignBaseQueries opts now)), s2.2)

/-- The object path appended to the endpoint (source line 290 / 543):
plain `encodeURIComponent` with encoded slashes re-expanded — note the
contrast with `encodeString`. -/
def objectPathOf (object : Option String) : String :=
  if jsTruthy object then "/" ++ replace2F (encodeURIComponent (jsOptStr object)) else ""

/-- `signatureUrlV4`, Web variant (source lines 253-296): build the
signed query map, then the final URL (lines 287-295). -/
def signatureUrlV4 (p : CryptoProvider) (opts : SignOpts) (now : JsDate) (c : Nat) :
    Except String String × Nat :=
  match presignQueries p opts now c with
  | (.error e, c') => (.error e, c')
  | (.ok q, c') =>
    match buildEndpoint opts.endpoint opts.bucket opts.region with
    | .error e => (.error e, c')
    | .ok base =>
      let qs := jsJoin "&" (q.map fun kv => encodeString kv.1 ++ "=" ++ encodeStringO kv.2)
      (.ok (base ++ objectPathOf opts.object ++ (if qs == "" then "" else "?" ++ qs)), c')

/-- `getStringToSign`, Node variant (source lines 484-489):
`crypto.createHash('sha256').update(cr).digest('hex')` is the provider's
SHA-256 rendered through `bufToHex`. -/
def nodeGetStringToSign (p : CryptoProvider) (region dateTime canonicalRequest product : String) : String :=
  let productName := if product == "" then getProduct else product
  let scope := jsSplitHead 'T' dateTime ++ "/" ++ region ++ "/" ++ productName ++ "/aliyun_v4_request"
  let hashed := bufToHex (p.sha256 (utf8Bytes canonicalRequest))
  jsJoin "\n" ["OSS4-HMAC-SHA256", dateTime, scope, hashed]

/-- `getSignatureV4`, Node variant (source lines 491-497). -/
def nodeGetSignatureV4 (p : CryptoProvider) (accessKeySecret : Option String)
    (date region stringToSign product : String) : String :=
  let kDate := p.hmacSha256 (utf8Bytes ("aliyun_v4" ++ jsOptStr accessKeySecret)) (utf8Bytes date)
  let kRegion := p.hmacSha256 kDate (utf8Bytes region)
  let kService := p.hmacSha256 kRegion (utf8Bytes product)
  let kSigning := p.hmacSha256 kService (utf8Bytes "aliyun_v4_request")
  bufToHex (p.hmacSha256 kSigning (utf8Bytes stringToSign))

/-- `signatureUrlV4`, Node variant (source lines 506-549): identical
body, synchronous crypto. -/
def nodeSignatureUrlV4 (p : CryptoProvider) (opts : SignOpts) (now : JsDate) : Except String String :=
  match canonicalRequestOf opts now with
  | .error e => .error e
  | .ok cr =>
    let f := formatDateUTC now
    let stringToSign := nodeGetStringToSign p (jsOptStr (getSignRegion opts.region)) f.timeStamp cr getProduct
    let sig := nodeGetSignatureV4 p opts.accessKeySecret f.dateStamp (jsOptStr (getSignRegion opts.region))
      stringToSign getProduct
    let q := jsInsert "x-oss-signature" (some sig) (presignBaseQueries opts now)
    match buildEndpoint opts.endpoint opts.bucket opts.region with
    | .error e => .error e
    | .ok base =>
      let qs := jsJoin "&" (q.map fun kv => encodeString kv.1 ++ "=" ++ encodeStringO kv.2)
      .ok (base ++ objectPathOf opts.object ++ (if qs == "" then "" else "?" ++ qs))

/-- The call the HTTP entrypoint makes on source line 377 / 664:
`signatureUrlV4(options, method, expires, requestParts, objectName,
additionalHeaders)`.  `signatureUrlV4` declares a single parameter, so
JavaScript discards the five extra positional arguments; the embedding
of the call site therefore receives them and ignores them. -/
def onRequestSignCall (p : CryptoProvider) (options : SignOpts) (now : JsDate)
    (_reqMethod : String) (_reqExpires : Nat) (_reqParts : List (String × String))
    (_reqObjectName : Option String) (_reqAdditionalHeaders : Option (List String)) :
    Except String String :=
  (signatureUrlV4 p options now 0).1

/-! ### Concrete instances used by witnesses and counterexamples -/

/-- A stand-in for the external crypto primitives, used to evaluate the
signer on concrete inputs: every digest is 32 zero bytes (the shape of
a real SHA-256 / HMAC-SHA256 output; none of the evaluated properties
depends on the digest values themselves). -/
def dummyProvider : CryptoProvider :=
  ⟨fun _ => List.replicate 32 0, fun _ _ => List.replicate 32 0⟩

/-- The fixed instant 2024-01-01T00:00:00Z of the spec's scenario
(`getUTCMonth()` is 0 for January). -/
def sampleDate : JsDate := ⟨2024, 0, 1, 0, 0, 0⟩

/-- The options object of the spec's scenario. -/
def scenarioOpts : SignOpts :=
  ⟨some "AKID", some "SECRET", some "oss-cn-hangzhou", some "my-bucket", some "a/b.txt",
   some "GET", some 60, [], [], none, none, none⟩

/-- The signed query map the scenario produces under `dummyProvider`. -/
def scenarioQueriesDummy : List (String × Option String) :=
  jsInsert "x-oss-signature" (some (bufToHex (List.replicate 32 0)))
    (presignBaseQueries scenarioOpts sampleDate)

/-- The string-to-sign the scenario produces under `dummyProvider`. -/
def scenarioStsDummy : String :=
  "OSS4-HMAC-SHA256\n20240101T000000Z\n20240101/cn-hangzhou/oss/aliyun_v4_request\n" ++
    bufToHex (List.replicate 32 0)

/-- Scenario options as they arrive from the HTTP entrypoint with
everything request-level absent from the options object itself:
no method, no expiry, no object. -/
def entrypointOpts : SignOpts :=
  ⟨some "AKID", some "SECRET", some "oss-cn-hangzhou", some "my-bucket", none,
   none, none, [], [], none, none, none⟩

/-- The signed query map `entrypointOpts` produces under `dummyProvider`. -/
def entrypointQueriesDummy : List (String × Option String) :=
  jsInsert "x-oss-signature" (some (bufToHex (List.replicate 32 0)))
    (presignBaseQueries entrypointOpts sampleDate)

/-- The host part of a produced URL: what stands between `https://`
(8 characters) and the first `/`. -/
def urlHost (u : String) : String := jsSplitHead '/' (String.mk (u.data.drop 8))

/-- The canonical request of the spec's scenario (method line, canonical
URI with bucket prefix, sorted encoded query string, empty canonical
headers, empty additional-header names, payload sentinel). -/
def scenarioCanon : String :=
  "GET\n/my-bucket/a/b.txt\nx-oss-credential=AKID%2F20240101%2Fcn-hangzhou%2Foss%2Faliyun_v4_request&x-oss-date=20240101T000000Z&x-oss-expires=60&x-oss-signature-version=OSS4-HMAC-SHA256\n\n\nUNSIGNED-PAYLOAD"

/-- The signature hex the scenario produces under an arbitrary provider
`p`: `getSignatureV4` applied exactly as the signing call applies it. -/
def scenarioSig (p : CryptoProvider) : String :=
  (getSignatureV4 p (some "SECRET") "20240101" "cn-hangzhou"
    ((getStringToSign p "cn-hangzhou" "20240101T000000Z" scenarioCanon "oss" 0).1) "oss" 0).1

/-- Options with an object key containing `!`, one of the characters
`encodeString` escapes beyond `encodeURIComponent`. -/
def bangOpts : SignOpts :=
  ⟨some "AKID", some "SECRET", some "oss-cn-hangzhou", some "my-bucket", some "x!.txt",
   some "GET", some 60, [], [], none, none, none⟩

/-- Options with `accessKeyId` missing and everything else present. -/
def noKeyIdOpts : SignOpts :=
  ⟨none, some "SECRET", some "oss-cn-hangzhou", some "my-bucket", some "a.txt",
   none, none, [], [], none, none, none⟩

/-- Options with `bucket` missing, `region` present, no endpoint
override and no object key. -/
def noBucketOpts : SignOpts :=
  ⟨some "AKID", some "SECRET", some "oss-cn-hangzhou", none, none,
   none, none, [], [], none, none, none⟩

/-- Options with an object key supplied but no bucket. -/
def objectNoBucketOpts : SignOpts :=
  ⟨some "AKID", some "SECRET", some "oss-cn-hangzhou", none, some "a.txt",
   none, none, [], [], none, none, none⟩

/-- Options with `bucket` present but `region` missing, no endpoint
override, and an object key supplied. -/
def regionMissingOpts : SignOpts :=
  ⟨some "AKID", some "SECRET", none, some "my-bucket", some "a.txt",
   none, none, [], [], none, none, none⟩

/-! ### Generic lemmas about the JS-semantics helpers -/

/-- Hex digit in lowercase form (`0-9a-f`), the alphabet `bufToHex`
emits. -/
def isHexLowerChar (c : Char) : Bool :=
  c.isDigit || (decide ('a' ≤ c) && decide (c ≤ 'f'))

theorem jsLookup_jsInsert_self {α : Type} (k : String) (v : α) (l : List (String × α)) :
    jsLookup k (jsInsert k v l) = some v := by
  induction l with
  | nil => simp [jsInsert, jsLookup]
  | cons kv rest ih =>
    obtain ⟨a, b⟩ := kv
    cases h : a == k with
    | true => simp [jsInsert, h, jsLookup]
    | false => simp [jsInsert, h, jsLookup, ih]

theorem jsLookup_jsInsert_ne {α : Type} {k k' : String} (hne : k' ≠ k) (v : α)
    (l : List (String × α)) : jsLookup k (jsInsert k' v l) = jsLookup k l := by
  induction l with
  | nil => simp [jsInsert, jsLookup, hne]
  | cons kv rest ih =>
    obtain ⟨a, b⟩ := kv
    cases h : a == k' with
    | true =>
      have : a = k' := by simpa using h
      subst this
      simp [jsInsert, jsLookup, hne, h]
    | false =>
      simp only [jsInsert, h, Bool.false_eq_true, if_false, jsLookup]
      split <;> simp [ih]

theorem takeWhile_all_append {c : Char} {l r : List Char} (h : ∀ a ∈ l, a ≠ c) :
    (l ++ c :: r).takeWhile (fun a => a != c) = l := by
  induction l with
  | nil => simp
  | cons a as ih =>
    have ha : a ≠ c := h a (by simp)
    simp only [List.cons_append, List.takeWhile_cons, bne_iff_ne, ne_eq, ha,
      not_false_eq_true, if_true, List.cons.injEq, true_and]
    exact ih fun x hx => h x (by simp [hx])

theorem digitChar_ne_T (n : Nat) : Nat.digitChar n ≠ 'T' := by
  rcases Nat.lt_or_ge n 16 with h | h
  · interval_cases n <;> decide
  · unfold Nat.digitChar
    repeat rw [if_neg (by omega)]
    decide

theorem toDigitsCore_ne_T (fuel n : Nat) (acc : List Char) (hacc : ∀ c ∈ acc, c ≠ 'T') :
    ∀ c ∈ Nat.toDigitsCore 10 fuel n acc, c ≠ 'T' := by
  induction fuel generalizing n acc with
  | zero => simpa [Nat.toDigitsCore] using hacc
  | succ fuel ih =>
    intro c hc
    simp only [Nat.toDigitsCore] at hc
    split at hc
    · rcases List.mem_cons.mp hc with h | h
      · exact h ▸ digitChar_ne_T _
      · exact hacc c h
    · refine ih _ _ ?_ c hc
      intro x hx
      rcases List.mem_cons.mp hx with h | h
      · exact h ▸ digitChar_ne_T _
      · exact hacc x h

theorem repr_ne_T (n : Nat) : ∀ c ∈ (Nat.repr n).data, c ≠ 'T' := by
  intro c hc
  exact toDigitsCore_ne_T (n + 1) n [] (by simp) c hc

theorem padNum_ne_T (n : Nat) : ∀ c ∈ (padNum n).data, c ≠ 'T' := by
  intro c hc
  unfold padNum at hc
  split at hc
  · rw [String.data_append] at hc
    rcases List.mem_append.mp hc with h | h
    · simp only [show ("0" : String).data = ['0'] from rfl, List.mem_singleton] at h
      exact h ▸ by decide
    · exact repr_ne_T n c h
  · exact repr_ne_T n c hc

theorem dateStamp_ne_T (d : JsDate) : ∀ c ∈ (formatDateUTC d).dateStamp.data, c ≠ 'T' := by
  intro c hc
  simp only [formatDateUTC, String.data_append, List.mem_append] at hc
  rcases hc with (h | h) | h
  · exact repr_ne_T _ c h
  · exact padNum_ne_T _ c h
  · exact padNum_ne_T _ c h

/-- The `dateTime.split('T')[0]` on source line 229 / 486 recovers
exactly the `dateStamp` half of `formatDateUTC`'s output, because a
date stamp consists of decimal digits only. -/
theorem jsSplitHead_timeStamp (d : JsDate) :
    jsSplitHead 'T' (formatDateUTC d).timeStamp = (formatDateUTC d).dateStamp := by
  show String.mk (List.takeWhile _ _) = _
  have hdata : (formatDateUTC d).timeStamp.data =
      (formatDateUTC d).dateStamp.data ++ 'T' ::
        ((padNum d.utcHours).data ++ (padNum d.utcMinutes).data ++ (padNum d.utcSeconds).data ++ ['Z']) := by
    simp [formatDateUTC, String.data_append]
  rw [show (formatDateUTC d).timeStamp.data =
      (formatDateUTC d).dateStamp.data ++ 'T' ::
        ((padNum d.utcHours).data ++ (padNum d.utcMinutes).data ++ (padNum d.utcSeconds).data ++ ['Z'])
    from hdata]
  rw [takeWhile_all_append (dateStamp_ne_T d)]

/-- The kernel-friendly character-list order on strings coincides with
the ambient (Mathlib) linear order. -/
theorem strLt_iff_lt (a b : String) : strLt a b ↔ a < b := by
  rw [String.lt_iff_toList_lt]
  exact List.lt_iff_lex_lt a.data b.data

theorem mem_strInsertSorted {a x : String} {l : List String} :
    x ∈ strInsertSorted a l ↔ x = a ∨ x ∈ l := by
  induction l with
  | nil => simp [strInsertSorted]
  | cons b rest ih =>
    unfold strInsertSorted
    split
    · simp
    · simp only [List.mem_cons, ih]
      tauto

theorem strInsertSorted_perm (a : String) (l : List String) :
    List.Perm (strInsertSorted a l) (a :: l) := by
  induction l with
  | nil => simp [strInsertSorted]
  | cons b rest ih =>
    unfold strInsertSorted
    split
    · exact List.Perm.refl _
    · exact (ih.cons b).trans (List.Perm.swap a b rest)

theorem sorted_strInsertSorted (a : String) {l : List String} (h : l.Sorted (· ≤ ·)) :
    (strInsertSorted a l).Sorted (· ≤ ·) := by
  induction l with
  | nil => simp [strInsertSorted]
  | cons b rest ih =>
    rw [List.sorted_cons] at h
    unfold strInsertSorted
    split
    · rename_i hab
      have hab' : a < b := (strLt_iff_lt a b).mp hab
      rw [List.sorted_cons]
      refine ⟨?_, List.sorted_cons.mpr h⟩
      intro x hx
      rcases List.mem_cons.mp hx with rfl | hx
      · exact le_of_lt hab'
      · exact le_trans (le_of_lt hab') (h.1 x hx)
    · rename_i hab
      have hab' : ¬ a < b := fun hlt => hab ((strLt_iff_lt a b).mpr hlt)
      rw [List.sorted_cons]
      refine ⟨?_, ih h.2⟩
      intro x hx
      rcases mem_strInsertSorted.mp hx with rfl | hx
      · exact le_of_not_lt hab'
      · exact h.1 x hx

theorem strSort_perm (l : List String) : List.Perm (strSort l) l := by
  induction l with
  | nil => simp [strSort]
  | cons a rest ih => exact (strInsertSorted_perm a (strSort rest)).trans (ih.cons a)

theorem sorted_strSort (l : List String) : (strSort l).Sorted (· ≤ ·) := by
  induction l with
  | nil => simp [strSort]
  | cons a rest ih => exact sorted_strInsertSorted a ih

theorem mem_strSort {x : String} {l : List String} : x ∈ strSort l ↔ x ∈ l :=
  (strSort_perm l).mem_iff

theorem mem_dedupFirstAux {x : String} (l : List String) : ∀ seen,
    (x ∈ dedupFirstAux seen l ↔ x ∈ l ∧ x ∉ seen) := by
  induction l with
  | nil => intro seen; simp [dedupFirstAux]
  | cons a rest ih =>
    intro seen
    unfold dedupFirstAux
    split
    · rename_i hc
      have ha : a ∈ seen := by simpa using hc
      rw [ih seen]
      constructor
      · exact fun ⟨h1, h2⟩ => ⟨List.mem_cons_of_mem a h1, h2⟩
      · rintro ⟨h1, h2⟩
        rcases List.mem_cons.mp h1 with rfl | h1
        · exact absurd ha h2
        · exact ⟨h1, h2⟩
    · rename_i hc
      have ha : a ∉ seen := by simpa using hc
      rw [List.mem_cons, ih (a :: seen)]
      constructor
      · rintro (rfl | ⟨h1, h2⟩)
        · exact ⟨List.mem_cons_self _ _, ha⟩
        · exact ⟨List.mem_cons_of_mem _ h1, fun hx => h2 (List.mem_cons_of_mem _ hx)⟩
      · rintro ⟨h1, h2⟩
        rcases List.mem_cons.mp h1 with rfl | h1
        · exact Or.inl rfl
        · by_cases hxa : x = a
          · exact Or.inl hxa
          · exact Or.inr ⟨h1, fun hx => by
              rcases List.mem_cons.mp hx with h | h
              · exact hxa h
              · exact h2 h⟩

theorem mem_dedupFirst {x : String} {l : List String} : x ∈ dedupFirst l ↔ x ∈ l := by
  unfold dedupFirst
  rw [mem_dedupFirstAux]
  simp

theorem nodup_dedupFirstAux (l : List String) : ∀ seen, (dedupFirstAux seen l).Nodup := by
  induction l with
  | nil => intro seen; simp [dedupFirstAux]
  | cons a rest ih =>
    intro seen
    unfold dedupFirstAux
    split
    · exact ih seen
    · refine List.nodup_cons.mpr ⟨?_, ih (a :: seen)⟩
      intro hmem
      exact ((mem_dedupFirstAux rest (a :: seen)).mp hmem).2 (List.mem_cons_self a seen)

theorem nodup_dedupFirst (l : List String) : (dedupFirst l).Nodup :=
  nodup_dedupFirstAux l []

theorem flatMap_singleton_of {α : Type} (f : α → List α) (l : List α)
    (h : ∀ c ∈ l, f c = [c]) : l.flatMap f = l := by
  induction l with
  | nil => simp
  | cons a rest ih =>
    simp only [List.flatMap_cons, h a (by simp), List.singleton_append, List.cons.injEq, true_and]
    exact ih fun c hc => h c (by simp [hc])

set_option maxRecDepth 4096 in
/-- Each hex chunk of `bufToHex` is exactly two characters from the
lowercase hex alphabet, and every such character survives
`encodeString` unchanged. -/
theorem byteHex_facts : ∀ b, b < 256 → (byteHex b).length = 2 ∧
    ∀ c ∈ byteHex b, isHexLowerChar c = true ∧ uriSafe c = true ∧ c ∉ extraEscapeSet := by
  decide

theorem bufToHex_length {bs : List Nat} (h : ∀ b ∈ bs, b < 256) :
    (bufToHex bs).length = 2 * bs.length := by
  induction bs with
  | nil => rfl
  | cons b rest ih =>
    show (List.flatMap _ _).length = _
    rw [List.flatMap_cons, List.length_append]
    have h2 := (byteHex_facts b (h b (by simp))).1
    have ih' : (List.flatMap rest byteHex).length = 2 * rest.length :=
      ih fun x hx => h x (by simp [hx])
    rw [h2, ih']
    simp [List.length_cons, Nat.mul_add, Nat.mul_succ]
    omega

theorem bufToHex_chars {bs : List Nat} (h : ∀ b ∈ bs, b < 256) :
    ∀ c ∈ (bufToHex bs).data, isHexLowerChar c = true ∧ uriSafe c = true ∧ c ∉ extraEscapeSet := by
  intro c hc
  simp only [bufToHex, List.mem_flatMap] at hc
  obtain ⟨b, hb, hcb⟩ := hc
  exact (byteHex_facts b (h b hb)).2 c hcb

theorem encodeURIComponent_eq_self {s : String} (h : ∀ c ∈ s.data, uriSafe c = true) :
    encodeURIComponent s = s := by
  unfold encodeURIComponent
  rw [flatMap_singleton_of _ _ (fun c hc => by simp [h c hc])]

theorem extraEscape_eq_self {s : String} (h : ∀ c ∈ s.data, c ∉ extraEscapeSet) :
    extraEscape s = s := by
  unfold extraEscape
  rw [flatMap_singleton_of _ _ (fun c hc => by simp [h c hc])]

theorem encodeString_eq_self {s : String}
    (h : ∀ c ∈ s.data, uriSafe c = true ∧ c ∉ extraEscapeSet) : encodeString s = s := by
  unfold encodeString
  rw [encodeURIComponent_eq_self (fun c hc => (h c hc).1),
    extraEscape_eq_self (fun c hc => (h c hc).2)]

/-- `encodeString` leaves a lowercase-hex string (such as a signature)
untouched. -/
theorem encodeString_bufToHex {bs : List Nat} (h : ∀ b ∈ bs, b < 256) :
    encodeString (bufToHex bs) = bufToHex bs :=
  encodeString_eq_self fun c hc => ((bufToHex_chars h) c hc).2

theorem utf8Bytes_append (s t : String) : utf8Bytes (s ++ t) = utf8Bytes s ++ utf8Bytes t := by
  simp [utf8Bytes, String.data_append, List.flatMap_append]


/-! ### Structure of the signed query map -/

/-- Whenever the Web signer's query-building phase succeeds, the result
is the pre-signature map with `x-oss-signature` inserted, and its value
is the `getSignatureV4` output on the string-to-sign derived from the
canonical request.  (The crypto counter does not influence any computed
string, so it is fixed to `0` in the right-hand side.) -/
theorem presignQueries_ok {p : CryptoProvider} {opts : SignOpts} {now : JsDate} {c : Nat}
    {q : List (String × Option String)} (hq : (presignQueries p opts now c).1 = .ok q) :
    ∃ cr, canonicalRequestOf opts now = .ok cr ∧
      q = jsInsert "x-oss-signature"
        (some ((getSignatureV4 p opts.accessKeySecret (formatDateUTC now).dateStamp
          (jsOptStr (getSignRegion opts.region))
          ((getStringToSign p (jsOptStr (getSignRegion opts.region)) (formatDateUTC now).timeStamp
            cr getProduct 0).1) getProduct 0).1))
        (presignBaseQueries opts now) := by
  unfold presignQueries at hq
  cases hcr : canonicalRequestOf opts now with
  | error e => rw [hcr] at hq; simp at hq
  | ok cr =>
    rw [hcr] at hq
    exact ⟨cr, rfl, (Except.ok.inj hq).symm⟩

theorem jsLookup_presignBase_date (opts : SignOpts) (now : JsDate) :
    jsLookup "x-oss-date" (presignBaseQueries opts now) =
      some (some (formatDateUTC now).timeStamp) := by
  simp only [presignBaseQueries]
  by_cases hst : jsTruthy opts.securityToken = true
  · rw [if_pos hst, jsLookup_jsInsert_ne (by decide), jsLookup_jsInsert_ne (by decide),
      jsLookup_jsInsert_ne (by decide), jsLookup_jsInsert_self]
  · rw [if_neg hst, jsLookup_jsInsert_ne (by decide), jsLookup_jsInsert_ne (by decide),
      jsLookup_jsInsert_self]

theorem jsLookup_presignBase_credential (opts : SignOpts) (now : JsDate) :
    jsLookup "x-oss-credential" (presignBaseQueries opts now) =
      some (some (getCredential (formatDateUTC now).dateStamp
        (jsOptStr (getSignRegion opts.region)) opts.accessKeyId getProduct)) := by
  simp only [presignBaseQueries]
  by_cases hst : jsTruthy opts.securityToken = true
  · rw [if_pos hst, jsLookup_jsInsert_ne (by decide), jsLookup_jsInsert_ne (by decide),
      jsLookup_jsInsert_ne (by decide), jsLookup_jsInsert_ne (by decide), jsLookup_jsInsert_self]
  · rw [if_neg hst, jsLookup_jsInsert_ne (by decide), jsLookup_jsInsert_ne (by decide),
      jsLookup_jsInsert_ne (by decide), jsLookup_jsInsert_self]

theorem jsLookup_presignBase_expires (opts : SignOpts) (now : JsDate) :
    jsLookup "x-oss-expires" (presignBaseQueries opts now) =
      some (some (Nat.repr (opts.expires.getD 60))) := by
  simp only [presignBaseQueries]
  by_cases hst : jsTruthy opts.securityToken = true
  · rw [if_pos hst, jsLookup_jsInsert_ne (by decide), jsLookup_jsInsert_ne (by decide),
      jsLookup_jsInsert_self]
  · rw [if_neg hst, jsLookup_jsInsert_ne (by decide), jsLookup_jsInsert_self]

theorem jsLookup_presignBase_sigver (opts : SignOpts) (now : JsDate) :
    jsLookup "x-oss-signature-version" (presignBaseQueries opts now) =
      some (some "OSS4-HMAC-SHA256") := by
  simp only [presignBaseQueries]
  by_cases hst : jsTruthy opts.securityToken = true
  · rw [if_pos hst, jsLookup_jsInsert_ne (by decide), jsLookup_jsInsert_self]
  · rw [if_neg hst, jsLookup_jsInsert_self]

/-! ### Claim theorems -/

/-- Claim C7: for a fixed options input and a fixed wall-clock instant —
the one `Date` value read at the start of the call (source line 271) —
the signer is a pure function: two calls yield identical results; and
that single instant feeds both the embedded `x-oss-date` timestamp and
the date half of the `x-oss-credential` scope. -/
theorem claim7_determinism_single_clock (p : CryptoProvider) (opts : SignOpts) (now : JsDate)
    (c : Nat) :
    signatureUrlV4 p opts now c = signatureUrlV4 p opts now c ∧
    (∀ q, (presignQueries p opts now c).1 = .ok q →
      jsLookup "x-oss-date" q = some (some (formatDateUTC now).timeStamp) ∧
      jsLookup "x-oss-credential" q = some (some (getCredential (formatDateUTC now).dateStamp
        (jsOptStr (getSignRegion opts.region)) opts.accessKeyId getProduct))) := by
  refine ⟨rfl, ?_⟩
  intro q hq
  obtain ⟨cr, _, rfl⟩ := presignQueries_ok hq
  constructor
  · rw [jsLookup_jsInsert_ne (by decide), jsLookup_presignBase_date]
  · rw [jsLookup_jsInsert_ne (by decide), jsLookup_presignBase_credential]

/-- Witness for C7 at the spec's scenario input and fixed instant. -/
theorem claim7_determinism_single_clock_witness :
    (presignQueries dummyProvider scenarioOpts sampleDate 0).1 = .ok scenarioQueriesDummy ∧
    jsLookup "x-oss-date" scenarioQueriesDummy = some (some "20240101T000000Z") ∧
    jsLookup "x-oss-credential" scenarioQueriesDummy =
      some (some "AKID/20240101/cn-hangzhou/oss/aliyun_v4_request") :=
  ⟨rfl, (claim7_determinism_single_clock dummyProvider scenarioOpts sampleDate 0).2
    scenarioQueriesDummy rfl⟩

/-- Claim C8: additional-header normalization lowercases every
caller-supplied name, de-duplicates via a set, excludes `content-type`,
`content-md5` and every name starting with `x-oss-`, and sorts the
survivors lexicographically; in particular
`["Content-Type", "X-Oss-Foo", "X-Custom-1"]` normalizes to exactly
`["x-custom-1"]`. -/
theorem claim8_additional_header_filtering :
    fixAdditionalHeaders (some ["Content-Type", "X-Oss-Foo", "X-Custom-1"]) = ["x-custom-1"] ∧
    (∀ (l : List String) (x : String), x ∈ fixAdditionalHeaders (some l) ↔
      (x ∈ l.map jsToLower ∧ x ≠ "content-type" ∧ x ≠ "content-md5" ∧
        jsStartsWith x "x-oss-" = false)) ∧
    (∀ l : List String, (fixAdditionalHeaders (some l)).Sorted (· ≤ ·) ∧
      (fixAdditionalHeaders (some l)).Nodup) := by
  refine ⟨by decide, ?_, ?_⟩
  · intro l x
    show x ∈ strSort _ ↔ _
    rw [mem_strSort, List.mem_filter, mem_dedupFirst]
    simp only [Bool.and_eq_true, Bool.not_eq_true', beq_eq_false_iff_ne, ne_eq, and_assoc]
  · intro l
    exact ⟨sorted_strSort _, ((strSort_perm _).nodup_iff).mpr
      (List.Nodup.filter _ (nodup_dedupFirst _))⟩

/-- Claim C9: sharing the same ambient crypto primitives, the Web-Crypto
signer variant and the Node-crypto variant agree: the canonicalization
helpers are the very same (verbatim-identical) computation, the
strings-to-sign agree, the hex signatures agree (at the product tag
`'oss'` which is the only value either variant is ever called with),
and the final URLs agree for every options object and instant. -/
theorem claim9_variant_equivalence (p : CryptoProvider) (opts : SignOpts) (now : JsDate)
    (c : Nat) (region dateTime cr date sts : String) (secret : Option String) :
    (getStringToSign p region dateTime cr getProduct c).1 =
      nodeGetStringToSign p region dateTime cr getProduct ∧
    (getSignatureV4 p secret date region sts getProduct c).1 =
      nodeGetSignatureV4 p secret date region sts getProduct ∧
    (signatureUrlV4 p opts now c).1 = nodeSignatureUrlV4 p opts now := by
  refine ⟨rfl, rfl, ?_⟩
  unfold signatureUrlV4 presignQueries nodeSignatureUrlV4
  cases hcr : canonicalRequestOf opts now with
  | error e => rfl
  | ok cr' =>
    cases hbe : buildEndpoint opts.endpoint opts.bucket opts.region with
    | error e => rfl
    | ok base => rfl

/-- Claim C10: the HTTP entrypoint's call
`signatureUrlV4(options, method, expires, requestParts, objectName,
additionalHeaders)` reaches a function with a single declared
parameter, so the five request-level arguments are ignored: the result
only depends on the options object, and when the options object lacks
the corresponding fields the defaults apply — canonical method `GET`,
`x-oss-expires=60`, and no object path. -/
theorem claim10_entrypoint_ignores_extras (p : CryptoProvider) (options : SignOpts) (now : JsDate)
    (m m' : String) (e e' : Nat) (rp rp' : List (String × String)) (ob ob' : Option String)
    (ah ah' : Option (List String)) :
    onRequestSignCall p options now m e rp ob ah = onRequestSignCall p options now m' e' rp' ob' ah' ∧
    onRequestSignCall p options now m e rp ob ah = (signatureUrlV4 p options now 0).1 ∧
    (options.method = none → canonicalRequestOf options now =
      getCanonicalRequest "GET" options.headers (presignBaseQueries options now) options.bucket
        options.object (fixAdditionalHeaders (some (options.additionalHeaders.getD [])))) ∧
    (options.expires = none → ∀ q, (presignQueries p options now 0).1 = .ok q →
      jsLookup "x-oss-expires" q = some (some "60")) ∧
    (options.object = none → objectPathOf options.object = "") := by
  refine ⟨rfl, rfl, ?_, ?_, ?_⟩
  · intro h
    unfold canonicalRequestOf
    rw [h]
    rfl
  · intro h q hq
    obtain ⟨cr, _, rfl⟩ := presignQueries_ok hq
    rw [jsLookup_jsInsert_ne (by decide), jsLookup_presignBase_expires, h]
    rfl
  · intro h
    rw [h]
    rfl

/-- Witness for C10: with the extras varied and an options object that
lacks method, expiry and object, the signed URL is unchanged and the
defaults show up. -/
theorem claim10_entrypoint_ignores_extras_witness :
    onRequestSignCall dummyProvider entrypointOpts sampleDate "PUT" 3600 [("a", "b")]
        (some "ignored.txt") (some ["X-Ignored"]) =
      onRequestSignCall dummyProvider entrypointOpts sampleDate "GET" 60 [] none none ∧
    (presignQueries dummyProvider entrypointOpts sampleDate 0).1 = .ok entrypointQueriesDummy ∧
    jsLookup "x-oss-expires" entrypointQueriesDummy = some (some "60") ∧
    objectPathOf entrypointOpts.object = "" := by
  have h := claim10_entrypoint_ignores_extras dummyProvider entrypointOpts sampleDate
    "PUT" "GET" 3600 60 [("a", "b")] [] (some "ignored.txt") none (some ["X-Ignored"]) none
  have h1 : onRequestSignCall dummyProvider entrypointOpts sampleDate "PUT" 3600 [("a", "b")]
      (some "ignored.txt") (some ["X-Ignored"]) =
      onRequestSignCall dummyProvider entrypointOpts sampleDate "GET" 60 [] none none := h.1
  exact ⟨h1, rfl, h.2.2.2.1 rfl entrypointQueriesDummy rfl, h.2.2.2.2 rfl⟩

/-- Claim C5: the `x-oss-signature` value the signer stores is the
lowercase-hex rendering of `HMAC-SHA256(K4, StringToSign)` where
`K0` is the UTF-8 bytes of the fixed tag `'aliyun_v4'` concatenated
with the secret, `K1 = HMAC-SHA256(K0, date)`,
`K2 = HMAC-SHA256(K1, region)`, `K3 = HMAC-SHA256(K2, product)` with
product `'oss'`, and `K4 = HMAC-SHA256(K3, 'aliyun_v4_request')`, each
step keyed on the previous step's raw output bytes. -/
theorem claim5_key_derivation_chain (p : CryptoProvider) (opts : SignOpts) (now : JsDate)
    (c : Nat) (q : List (String × Option String)) (hq : (presignQueries p opts now c).1 = .ok q)
    (sts : String) (hsts : stringToSignOf p opts now = .ok sts) :
    jsLookup "x-oss-signature" q = some (some (bufToHex (p.hmacSha256
      (p.hmacSha256 (p.hmacSha256 (p.hmacSha256 (p.hmacSha256
        (utf8Bytes "aliyun_v4" ++ utf8Bytes (jsOptStr opts.accessKeySecret))
        (utf8Bytes (formatDateUTC now).dateStamp))
        (utf8Bytes (jsOptStr (getSignRegion opts.region))))
        (utf8Bytes "oss"))
        (utf8Bytes "aliyun_v4_request"))
      (utf8Bytes sts)))) := by
  obtain ⟨cr, hcr, rfl⟩ := presignQueries_ok hq
  unfold stringToSignOf at hsts
  rw [hcr] at hsts
  have hs : (getStringToSign p (jsOptStr (getSignRegion opts.region))
      (formatDateUTC now).timeStamp cr getProduct 0).1 = sts := Except.ok.inj hsts
  rw [jsLookup_jsInsert_self, ← hs]
  simp only [getSignatureV4, hmacSha256Async]
  rw [utf8Bytes_append]
  rfl

/-- Witness for C5 at the spec's scenario input: both hypotheses hold
by evaluation and the stored signature is the hex of the dummy
provider's final HMAC output. -/
theorem claim5_key_derivation_chain_witness :
    (presignQueries dummyProvider scenarioOpts sampleDate 0).1 = .ok scenarioQueriesDummy ∧
    stringToSignOf dummyProvider scenarioOpts sampleDate = .ok scenarioStsDummy ∧
    jsLookup "x-oss-signature" scenarioQueriesDummy =
      some (some (bufToHex (List.replicate 32 0))) :=
  ⟨rfl, rfl, claim5_key_derivation_chain dummyProvider scenarioOpts sampleDate 0
    scenarioQueriesDummy rfl scenarioStsDummy rfl⟩

/-- Claim C6: the date/region/product/suffix scope inside the
`x-oss-credential` query value is character-for-character the
credential-scope line of the string-to-sign the signature is derived
from, for every input on which the signer succeeds. -/
theorem claim6_scope_consistency (p : CryptoProvider) (opts : SignOpts) (now : JsDate)
    (sts : String) (hsts : stringToSignOf p opts now = .ok sts) :
    ∃ hashHex,
      sts = "OSS4-HMAC-SHA256\n" ++ (formatDateUTC now).timeStamp ++ "\n" ++
        ((formatDateUTC now).dateStamp ++ "/" ++ jsOptStr (getSignRegion opts.region) ++
          "/oss/aliyun_v4_request") ++ "\n" ++ hashHex ∧
      jsLookup "x-oss-credential" (presignBaseQueries opts now) =
        some (some ((if jsTruthy opts.accessKeyId then jsOptStr opts.accessKeyId ++ "/" else "") ++
          ((formatDateUTC now).dateStamp ++ "/" ++ jsOptStr (getSignRegion opts.region) ++
            "/oss/aliyun_v4_request"))) := by
  unfold stringToSignOf at hsts
  cases hcr : canonicalRequestOf opts now with
  | error e => rw [hcr] at hsts; exact Except.noConfusion hsts
  | ok cr =>
    rw [hcr] at hsts
    have hs : sts = (getStringToSign p (jsOptStr (getSignRegion opts.region))
        (formatDateUTC now).timeStamp cr getProduct 0).1 := (Except.ok.inj hsts).symm
    refine ⟨bufToHex (p.sha256 (utf8Bytes cr)), ?_, ?_⟩
    · rw [hs]
      rw [show (getStringToSign p (jsOptStr (getSignRegion opts.region))
          (formatDateUTC now).timeStamp cr getProduct 0).1 =
        "OSS4-HMAC-SHA256" ++ "\n" ++ ((formatDateUTC now).timeStamp ++ "\n" ++
          ((jsSplitHead 'T' (formatDateUTC now).timeStamp ++ "/" ++
            jsOptStr (getSignRegion opts.region) ++ "/" ++ "oss" ++ "/aliyun_v4_request") ++
            "\n" ++ bufToHex (p.sha256 (utf8Bytes cr)))) from rfl]
      rw [jsSplitHead_timeStamp]
      apply String.ext
      simp only [String.data_append, List.append_assoc]
      rfl
    · rw [jsLookup_presignBase_credential]
      simp only [getCredential]
      by_cases hid : jsTruthy opts.accessKeyId = true
      · rw [if_pos hid, if_pos hid]
        apply congrArg
        apply congrArg
        apply String.ext
        simp only [String.data_append, List.append_assoc]
        rfl
      · rw [if_neg hid, if_neg hid]
        apply congrArg
        apply congrArg
        apply String.ext
        simp only [String.data_append, List.append_assoc]
        rfl

/-- Witness for C6 at the spec's scenario input. -/
theorem claim6_scope_consistency_witness :
    stringToSignOf dummyProvider scenarioOpts sampleDate = .ok scenarioStsDummy ∧
    ∃ hashHex,
      scenarioStsDummy = "OSS4-HMAC-SHA256\n" ++ (formatDateUTC sampleDate).timeStamp ++ "\n" ++
        ((formatDateUTC sampleDate).dateStamp ++ "/" ++
          jsOptStr (getSignRegion scenarioOpts.region) ++ "/oss/aliyun_v4_request") ++ "\n" ++
        hashHex ∧
      jsLookup "x-oss-credential" (presignBaseQueries scenarioOpts sampleDate) =
        some (some ((if jsTruthy scenarioOpts.accessKeyId then
            jsOptStr scenarioOpts.accessKeyId ++ "/" else "") ++
          ((formatDateUTC sampleDate).dateStamp ++ "/" ++
            jsOptStr (getSignRegion scenarioOpts.region) ++ "/oss/aliyun_v4_request"))) :=
  ⟨rfl, claim6_scope_consistency dummyProvider scenarioOpts sampleDate scenarioStsDummy rfl⟩

/-! ### The scenario URL and the corrected claims -/

set_option maxRecDepth 8192 in
/-- For any provider, the scenario signing call yields exactly the
fixed URL prefix (host with the raw region, path, and the four
deterministic query parameters) followed by the `encodeString`-rendered
signature. -/
theorem signatureUrlV4_scenario_shape (p : CryptoProvider) :
    (signatureUrlV4 p scenarioOpts sampleDate 0).1 = .ok
      ("https://my-bucket.oss-cn-hangzhou.aliyuncs.com/a/b.txt?x-oss-credential=AKID%2F20240101%2Fcn-hangzhou%2Foss%2Faliyun_v4_request&x-oss-date=20240101T000000Z&x-oss-expires=60&x-oss-signature-version=OSS4-HMAC-SHA256&x-oss-signature=" ++
        encodeString (scenarioSig p)) := by
  rfl

set_option maxRecDepth 8192 in
/-- Claim C1 corrected: signing the scenario options at the fixed
instant yields, for every provider whose HMAC outputs are 32 bytes, a
URL whose host is `my-bucket.oss-cn-hangzhou.aliyuncs.com` — the host
uses the RAW region, the `oss-` prefix is stripped only inside the
credential scope — whose path is the literal `/a/b.txt` with the
interior slash unescaped, and whose query contains
`x-oss-signature-version=OSS4-HMAC-SHA256` and an `x-oss-signature`
of exactly 64 lowercase-hex characters. -/
theorem claim1_scenario_url (p : CryptoProvider)
    (hp : ∀ k d, (p.hmacSha256 k d).length = 32 ∧ ∀ b ∈ p.hmacSha256 k d, b < 256) :
    ∃ sig,
      (signatureUrlV4 p scenarioOpts sampleDate 0).1 = .ok
        ("https://my-bucket.oss-cn-hangzhou.aliyuncs.com/a/b.txt?x-oss-credential=AKID%2F20240101%2Fcn-hangzhou%2Foss%2Faliyun_v4_request&x-oss-date=20240101T000000Z&x-oss-expires=60&x-oss-signature-version=OSS4-HMAC-SHA256&x-oss-signature=" ++
          sig) ∧
      sig.length = 64 ∧ (∀ ch ∈ sig.data, isHexLowerChar ch = true) ∧
      (∀ q, (presignQueries p scenarioOpts sampleDate 0).1 = .ok q →
        jsLookup "x-oss-signature-version" q = some (some "OSS4-HMAC-SHA256")) := by
  have hsig : scenarioSig p = bufToHex (p.hmacSha256
      (p.hmacSha256 (p.hmacSha256 (p.hmacSha256 (p.hmacSha256
        (utf8Bytes "aliyun_v4SECRET") (utf8Bytes "20240101")) (utf8Bytes "cn-hangzhou"))
        (utf8Bytes "oss")) (utf8Bytes "aliyun_v4_request"))
      (utf8Bytes ((getStringToSign p "cn-hangzhou" "20240101T000000Z" scenarioCanon "oss" 0).1))) :=
    rfl
  refine ⟨scenarioSig p, ?_, ?_, ?_, ?_⟩
  · rw [signatureUrlV4_scenario_shape p, hsig, encodeString_bufToHex (hp _ _).2]
  · rw [hsig, bufToHex_length (hp _ _).2, (hp _ _).1]
  · intro ch hch
    rw [hsig] at hch
    exact ((bufToHex_chars (hp _ _).2) ch hch).1
  · intro q hq
    obtain ⟨cr, _, rfl⟩ := presignQueries_ok hq
    rw [jsLookup_jsInsert_ne (by decide), jsLookup_presignBase_sigver]

/-- Witness for the corrected C1 with the 32-zero-byte stand-in
provider. -/
theorem claim1_scenario_url_witness :
    (∀ k d, (dummyProvider.hmacSha256 k d).length = 32 ∧
      ∀ b ∈ dummyProvider.hmacSha256 k d, b < 256) ∧
    ∃ sig,
      (signatureUrlV4 dummyProvider scenarioOpts sampleDate 0).1 = .ok
        ("https://my-bucket.oss-cn-hangzhou.aliyuncs.com/a/b.txt?x-oss-credential=AKID%2F20240101%2Fcn-hangzhou%2Foss%2Faliyun_v4_request&x-oss-date=20240101T000000Z&x-oss-expires=60&x-oss-signature-version=OSS4-HMAC-SHA256&x-oss-signature=" ++
          sig) ∧
      sig.length = 64 ∧ (∀ ch ∈ sig.data, isHexLowerChar ch = true) ∧
      (∀ q, (presignQueries dummyProvider scenarioOpts sampleDate 0).1 = .ok q →
        jsLookup "x-oss-signature-version" q = some (some "OSS4-HMAC-SHA256")) := by
  have hp : ∀ k d, (dummyProvider.hmacSha256 k d).length = 32 ∧
      ∀ b ∈ dummyProvider.hmacSha256 k d, b < 256 := fun k d =>
    ⟨rfl, fun b hb => by
      have hb0 : b = 0 := List.eq_of_mem_replicate hb
      omega⟩
  exact ⟨hp, claim1_scenario_url dummyProvider hp⟩

set_option maxRecDepth 8192 in
/-- Counterexample to C1 as frozen: the host of the produced URL keeps
the `oss-` region prefix, so it is NOT `my-bucket.cn-hangzhou.aliyuncs.com`. -/
theorem claim1_counterexample :
    ∃ u, (signatureUrlV4 dummyProvider scenarioOpts sampleDate 0).1 = .ok u ∧
      urlHost u = "my-bucket.oss-cn-hangzhou.aliyuncs.com" ∧
      ¬ urlHost u = "my-bucket.cn-hangzhou.aliyuncs.com" := by
  refine ⟨_, rfl, by decide, by decide⟩

/-- Claim C2 corrected: the object path of the composed final URL uses
plain `encodeURIComponent` (with encoded slashes re-expanded) and does
NOT apply the extra escaping of `! ' ( ) *`; `encodeString` — used for
query keys/values and for the canonical URI — does escape them, so the
two encodings deliberately differ on exactly those characters. -/
theorem claim2_path_not_extra_escaped :
    (∀ s : String, jsTruthy (some s) = true →
      objectPathOf (some s) = "/" ++ replace2F (encodeURIComponent s)) ∧
    encodeURIComponent "!\x27()*" = "!\x27()*" ∧
    encodeString "!\x27()*" = "%21%27%28%29%2A" ∧
    objectPathOf (some "x!.txt") = "/x!.txt" ∧
    encodeString "x!.txt" = "x%21.txt" := by
  refine ⟨?_, by decide, by decide, by decide, by decide⟩
  intro s hs
  unfold objectPathOf
  rw [if_pos hs]
  rfl

set_option maxRecDepth 8192 in
/-- Counterexample to C2 as frozen: for the object key `x!.txt` the
composed URL keeps the `!` literally in its path, which is not what
`encodeString` (the query/canonical encoding) produces. -/
theorem claim2_counterexample :
    ∃ u, (signatureUrlV4 dummyProvider bangOpts sampleDate 0).1 = .ok u ∧
      jsStartsWith u "https://my-bucket.oss-cn-hangzhou.aliyuncs.com/x!.txt?" = true ∧
      ¬ encodeString "x!.txt" = "x!.txt" := by
  refine ⟨_, rfl, by decide, by decide⟩

/-- Witness for the corrected C2 at the object key `x!.txt`. -/
theorem claim2_path_not_extra_escaped_witness :
    jsTruthy (some "x!.txt") = true ∧
    objectPathOf (some "x!.txt") = "/" ++ replace2F (encodeURIComponent "x!.txt") :=
  ⟨rfl, claim2_path_not_extra_escaped.1 "x!.txt" rfl⟩

/-- With an object key but no bucket, the signing call fails inside
`getCanonicalRequest` and the crypto counter is returned unchanged:
the error precedes any SHA-256 / HMAC invocation. -/
theorem signatureUrlV4_object_without_bucket (p : CryptoProvider) (opts : SignOpts)
    (now : JsDate) (c : Nat) (ho : jsTruthy opts.object = true)
    (hb : jsTruthy opts.bucket = false) :
    signatureUrlV4 p opts now c = (.error "bucketName required when objectName provided", c) := by
  have hcr : canonicalRequestOf opts now =
      .error "bucketName required when objectName provided" := by
    unfold canonicalRequestOf getCanonicalRequest
    rw [ho, hb]
    rfl
  unfold signatureUrlV4 presignQueries
  rw [hcr]

/-- Whenever the endpoint-construction `ConfigurationError` is reached
— the object-without-bucket check does not fire (no object key, or the
bucket is present), there is no endpoint override, and bucket and
region are not both present — the signing call fails only in
`buildEndpoint`, after the canonical-request hash and the five
key-derivation HMACs: the counter has grown by 6. -/
theorem signatureUrlV4_endpoint_error_after_crypto (p : CryptoProvider) (opts : SignOpts)
    (now : JsDate) (c : Nat)
    (hcanon : jsTruthy opts.object = false ∨ jsTruthy opts.bucket = true)
    (he : jsTruthy opts.endpoint = false)
    (hbr : jsTruthy opts.bucket = false ∨ jsTruthy opts.region = false) :
    signatureUrlV4 p opts now c = (.error "bucket and region or endpoint required", c + 6) := by
  have hcond : (jsTruthy opts.object && !jsTruthy opts.bucket) = false := by
    rcases hcanon with h | h <;> simp [h]
  have hcr : ∃ cr, canonicalRequestOf opts now = .ok cr := by
    unfold canonicalRequestOf getCanonicalRequest
    rw [hcond]
    exact ⟨_, rfl⟩
  obtain ⟨cr, hcr⟩ := hcr
  have hor : (!jsTruthy opts.bucket || !jsTruthy opts.region) = true := by
    rcases hbr with h | h <;> simp [h]
  have hbe : buildEndpoint opts.endpoint opts.bucket opts.region =
      .error "bucket and region or endpoint required" := by
    unfold buildEndpoint
    rw [he, hor]
    rfl
  unfold signatureUrlV4 presignQueries
  rw [hcr, hbe]
  rfl

/-- Claim C3 corrected: `signatureUrlV4` itself validates only the
bucket-related requirements: it errors whenever the bucket is missing
and either an object key is supplied or no endpoint override is given.
Missing `accessKeyId` / `accessKeySecret` are NOT validated there (see
the counterexample; the credential check lives in the HTTP entrypoint,
which rejects such requests with HTTP 400 before calling the signer). -/
theorem claim3_bucket_only_validation (p : CryptoProvider) (opts : SignOpts) (now : JsDate)
    (c : Nat) (hb : jsTruthy opts.bucket = false)
    (h2 : jsTruthy opts.object = true ∨ jsTruthy opts.endpoint = false) :
    ∃ e, (signatureUrlV4 p opts now c).1 = .error e := by
  rcases h2 with ho | he
  · exact ⟨_, by rw [signatureUrlV4_object_without_bucket p opts now c ho hb]⟩
  · by_cases ho : jsTruthy opts.object = true
    · exact ⟨_, by rw [signatureUrlV4_object_without_bucket p opts now c ho hb]⟩
    · have ho' : jsTruthy opts.object = false := by
        cases hov : jsTruthy opts.object
        · rfl
        · exact absurd hov ho
      exact ⟨_, by
        rw [signatureUrlV4_endpoint_error_after_crypto p opts now c (Or.inl ho') he (Or.inl hb)]⟩

/-- Witness for the corrected C3: missing bucket with no endpoint
override errors. -/
theorem claim3_bucket_only_validation_witness :
    jsTruthy noBucketOpts.bucket = false ∧
    ∃ e, (signatureUrlV4 dummyProvider noBucketOpts sampleDate 0).1 = .error e :=
  ⟨rfl, claim3_bucket_only_validation dummyProvider noBucketOpts sampleDate 0 rfl (Or.inr rfl)⟩

/-- Counterexample to C3 as frozen: with `accessKeyId` missing (and
everything else present) the signer still returns a URL instead of
failing. -/
theorem claim3_counterexample :
    noKeyIdOpts.accessKeyId = none ∧
    ∃ u, (signatureUrlV4 dummyProvider noKeyIdOpts sampleDate 0).1 = .ok u :=
  ⟨rfl, _, rfl⟩

/-- Claim C4 corrected: the object-without-bucket `ConfigurationError`
is indeed raised before any SHA-256 or HMAC computation (the crypto
counter stays at `c`), but the endpoint-construction
`ConfigurationError` — no endpoint override and not both bucket and
region, on every input on which it is reached (that is, whenever the
object-without-bucket check does not fire first) — is raised only
AFTER the canonical-request hash and the full key-derivation/signing
chain — 6 crypto-primitive invocations — have already run. -/
theorem claim4_error_ordering :
    (∀ (p : CryptoProvider) (opts : SignOpts) (now : JsDate) (c : Nat),
      jsTruthy opts.object = true → jsTruthy opts.bucket = false →
      signatureUrlV4 p opts now c =
        (.error "bucketName required when objectName provided", c)) ∧
    (∀ (p : CryptoProvider) (opts : SignOpts) (now : JsDate) (c : Nat),
      (jsTruthy opts.object = false ∨ jsTruthy opts.bucket = true) →
      jsTruthy opts.endpoint = false →
      (jsTruthy opts.bucket = false ∨ jsTruthy opts.region = false) →
      signatureUrlV4 p opts now c =
        (.error "bucket and region or endpoint required", c + 6)) :=
  ⟨fun p opts now c ho hb => signatureUrlV4_object_without_bucket p opts now c ho hb,
   fun p opts now c hcanon he hbr =>
     signatureUrlV4_endpoint_error_after_crypto p opts now c hcanon he hbr⟩

/-- Witness for the corrected C4 at three concrete inputs: object
without bucket (error with counter 0), bucket and region both missing,
and bucket present with region missing (both endpoint errors with
counter 6). -/
theorem claim4_error_ordering_witness :
    signatureUrlV4 dummyProvider objectNoBucketOpts sampleDate 0 =
      (.error "bucketName required when objectName provided", 0) ∧
    signatureUrlV4 dummyProvider noBucketOpts sampleDate 0 =
      (.error "bucket and region or endpoint required", 0 + 6) ∧
    signatureUrlV4 dummyProvider regionMissingOpts sampleDate 0 =
      (.error "bucket and region or endpoint required", 0 + 6) :=
  ⟨claim4_error_ordering.1 dummyProvider objectNoBucketOpts sampleDate 0 rfl rfl,
   claim4_error_ordering.2 dummyProvider noBucketOpts sampleDate 0 (Or.inl rfl) rfl (Or.inl rfl),
   claim4_error_ordering.2 dummyProvider regionMissingOpts sampleDate 0 (Or.inr rfl) rfl
     (Or.inr rfl)⟩

/-- Counterexample to C4 as frozen: an input whose only
`ConfigurationError` is the endpoint one reaches the error with 6
crypto-primitive invocations already performed, not 0. -/
theorem claim4_counterexample :
    signatureUrlV4 dummyProvider noBucketOpts sampleDate 0 =
      (.error "bucket and region or endpoint required", 6) ∧ (6 : Nat) ≠ 0 :=
  ⟨rfl, by decide⟩
